import Mathlib

/-!
Shallow embedding of the signaling server in `server/index.ts` of the
rtc-video-call repository.  The process-wide mutable JavaScript objects
(`rooms`, `userRooms`, `sessionConnections`, `userSessions`,
`sessionToSocket`, `pendingRoomCleanups`) are modelled as association
lists with JavaScript object semantics (update in place for an existing
key, append for a new key, `delete` removes the key).  Socket.IO's
transport-level room membership (`socket.join` / `socket.leave` /
automatic leave-all on disconnect) is modelled by the `channels` map,
and every `emit` performed by a handler is recorded as an `Emission`.
JavaScript string truthiness is modelled by comparison with `""`
(the only falsy string); absent map entries are `none`.
-/

namespace RTC

/-- Lookup in a JS-object-style association list. -/
def getk {α : Type} (k : String) : List (String × α) → Option α
  | [] => none
  | (k1, v) :: rest => if k1 = k then some v else getk k rest

/-- JS object assignment `o[k] = v`: replace in place if present, else append. -/
def setk {α : Type} (k : String) (v : α) : List (String × α) → List (String × α)
  | [] => [(k, v)]
  | (k1, v1) :: rest => if k1 = k then (k, v) :: rest else (k1, v1) :: setk k v rest

/-- JS `delete o[k]`: remove the entry for `k`. -/
def delk {α : Type} (k : String) (l : List (String × α)) : List (String × α) :=
  l.filter (fun p => p.1 ≠ k)

/-- The `if (!xs.includes(x)) xs.push(x)` idiom. -/
def addIfAbsent (x : String) (l : List String) : List String :=
  if x ∈ l then l else l ++ [x]

/-- Per-room record of `rooms[roomId]`: occupant session ids and raw socket ids. -/
structure RoomData where
  sessionIds : List String
  socketIds : List String
deriving DecidableEq

/-- An entry of `pendingRoomCleanups[roomId]`.  The `setTimeout` handle is
modelled by `delayMs` (the scheduled delay) and `timerAlive` (false once the
timer has fired without being cleared; `clearTimeout` sites always delete the
whole entry). -/
structure CleanupEntry where
  sessionId : String
  delayMs : Nat
  timerAlive : Bool
deriving DecidableEq

/-- The process-wide state of the signaling server. -/
structure ServerState where
  rooms : List (String × RoomData)
  userRooms : List (String × String)
  sessionConnections : List (String × List String)
  userSessions : List (String × String)
  sessionToSocket : List (String × String)
  pendingRoomCleanups : List (String × CleanupEntry)
  /-- Socket.IO adapter rooms: transport-level broadcast groups. -/
  channels : List (String × List String)
  /-- `io.sockets.sockets` key set: currently connected socket ids. -/
  connectedSockets : List String
deriving DecidableEq

def MAX_USERS_PER_ROOM : Nat := 2

/-- `ROOM_CLEANUP_DELAY = 20000` milliseconds (20 seconds). -/
def ROOM_CLEANUP_DELAY : Nat := 20000

def initialState : ServerState :=
  { rooms := [], userRooms := [], sessionConnections := [], userSessions := []
    sessionToSocket := [], pendingRoomCleanups := [], channels := []
    connectedSockets := [] }

/-- `socket.join(roomId)` on the adapter. -/
def chanJoin (roomId sock : String) (channels : List (String × List String)) :
    List (String × List String) :=
  setk roomId (addIfAbsent sock ((getk roomId channels).getD [])) channels

/-- `socket.leave(roomId)` on the adapter. -/
def chanLeave (roomId sock : String) (channels : List (String × List String)) :
    List (String × List String) :=
  match getk roomId channels with
  | none => channels
  | some members => setk roomId (members.erase sock) channels

/-- On disconnect a socket leaves every adapter room automatically. -/
def chanLeaveAll (sock : String) (channels : List (String × List String)) :
    List (String × List String) :=
  channels.map (fun p => (p.1, p.2.erase sock))

/-- The two fields of an `RTCSessionDescriptionInit`. -/
structure SessionDescInit where
  type : String
  sdp : String
deriving DecidableEq

/-- Payloads of the events the server emits. `Option String` session fields are
`none` when the corresponding JS value is `undefined`/absent; optional
`type`/`sdp` fields of the relayed offer/answer are `none` when the spread
source object did not carry them. -/
inductive Payload
  | roomFull (roomId : String)
  | userJoined (userId : String) (sessionId : String) (roomId : String)
  | userLeft (userId : String) (sessionId : Option String) (roomId : String)
  | userMediaPermissions (userId : String) (sessionId : String) (audio video : Bool)
  | sdpRelay (kind : String) (typ sdp : Option String)
      (fromSocketId : String) (fromSessionId : String)
  | iceRelay (fields : List (String × String))
      (fromSocketId : String) (fromSessionId : String)
  | transcription (text : String) (userId : String) (sessionId : String)
      (language : String) (isOwnMessage : Bool)
  | ttsResponse (audio : String) (language : String)
  | ttsError (error : String)
deriving DecidableEq

/-- Where an emission is addressed: `socket.emit` is a unicast to the socket,
`socket.to(roomId).emit` is a broadcast to the adapter room excluding the
sender socket. -/
inductive Target
  | toSocket (sock : String)
  | toRoomExcept (roomId : String) (sender : String)
deriving DecidableEq

structure Emission where
  target : Target
  payload : Payload
deriving DecidableEq

/-- Whether an emission is delivered to socket `c`, given the adapter state at
emission time. -/
def deliversTo (channels : List (String × List String)) (e : Emission)
    (c : String) : Bool :=
  match e.target with
  | Target.toSocket s => c = s
  | Target.toRoomExcept roomId sender =>
    c ∈ (getk roomId channels).getD [] && c ≠ sender

/-- The trailing `if (!rooms[roomId].socketIds.includes(socket.id)) push`
shared by all non-returning paths of `joinRoom`. -/
def pushSocketId (st : ServerState) (roomId sock : String) : ServerState :=
  match getk roomId st.rooms with
  | none => st
  | some room =>
    if sock ∈ room.socketIds then st
    else
      let room2 := { room with socketIds := room.socketIds ++ [sock] }
      { st with rooms := setk roomId room2 st.rooms }

/-- `joinRoom(socket, sessionId, roomId)` (server/index.ts lines 347-392):
create the room if absent, `socket.join`, then either (a) session already an
occupant: fall through, (b) room full: emit `room-full` to the caller only and
return early (skipping the socket-id push), or (c) add the occupant, record
`userRooms`, broadcast `user-joined` to the rest of the room. -/
def joinRoomF (st : ServerState) (sock sessionId roomId : String) :
    ServerState × List Emission :=
  let rooms1 := if (getk roomId st.rooms).isSome then st.rooms
                else setk roomId ⟨[], []⟩ st.rooms
  let st1 := { st with rooms := rooms1, channels := chanJoin roomId sock st.channels }
  let room := (getk roomId rooms1).getD ⟨[], []⟩
  if sessionId ∈ room.sessionIds then
    (pushSocketId st1 roomId sock, [])
  else if MAX_USERS_PER_ROOM ≤ room.sessionIds.length then
    (st1, [⟨Target.toSocket sock, Payload.roomFull roomId⟩])
  else
    let st2 := { st1 with
      rooms := setk roomId { room with sessionIds := room.sessionIds ++ [sessionId] } rooms1,
      userRooms := setk sessionId roomId st.userRooms }
    (pushSocketId st2 roomId sock,
     [⟨Target.toRoomExcept roomId sock, Payload.userJoined sock sessionId roomId⟩])

/-- `getSocketIdsBySessionId` (lines 761-764). -/
def getSocketIdsBySessionId (st : ServerState) (targetSessionId : String) : List String :=
  if targetSessionId = "" then []
  else (getk targetSessionId st.sessionConnections).getD []

/-- `handleSessionLeaveRoom(sessionId, roomId)` (lines 827-890): remove the
session from the room; if the room became empty, cancel-and-replace any
pending cleanup and schedule a new one with `ROOM_CLEANUP_DELAY`; otherwise
emit `user-left` via each of the leaving session's still-connected sockets
(`io.sockets.sockets.get`). -/
def handleSessionLeaveRoomF (st : ServerState) (sessionId roomId : String) :
    ServerState × List Emission :=
  match getk roomId st.rooms with
  | none => (st, [])
  | some room =>
    if sessionId ∈ room.sessionIds then
      let newSessionIds := room.sessionIds.erase sessionId
      let st1 := { st with
        rooms := setk roomId { room with sessionIds := newSessionIds } st.rooms,
        userRooms := delk sessionId st.userRooms }
      if newSessionIds.isEmpty then
        let pend1 := delk roomId st1.pendingRoomCleanups
        let pend2 := setk roomId ⟨sessionId, ROOM_CLEANUP_DELAY, true⟩ pend1
        ({ st1 with pendingRoomCleanups := pend2 }, [])
      else
        let sessionSockets := getSocketIdsBySessionId st1 sessionId
        (st1, sessionSockets.filterMap (fun sockId =>
          if sockId ∈ st1.connectedSockets then
            some ⟨Target.toRoomExcept roomId sockId,
                  Payload.userLeft sockId (some sessionId) roomId⟩
          else none))
    else (st, [])

/-- `handleUserLeaveRoom(socket, roomId)` (lines 766-824).  Note the early
return when the room is absent happens before `socket.leave(roomId)`. -/
def handleUserLeaveRoomF (st : ServerState) (sock roomId : String) :
    ServerState × List Emission :=
  match getk roomId st.rooms with
  | none => (st, [])
  | some room =>
    let sessionId := (getk sock st.userSessions).getD ""
    if sessionId ≠ "" then
      let sessionSockets := getSocketIdsBySessionId st sessionId
      if sessionSockets.length ≤ 1 then
        let (st1, ems) := handleSessionLeaveRoomF st sessionId roomId
        ({ st1 with channels := chanLeave roomId sock st1.channels }, ems)
      else
        let st1 :=
          if sock ∈ room.socketIds then
            let room2 := { room with socketIds := room.socketIds.erase sock }
            { st with rooms := setk roomId room2 st.rooms }
          else st
        ({ st1 with channels := chanLeave roomId sock st1.channels }, [])
    else
      if sock ∈ room.socketIds then
        let newSocketIds := room.socketIds.erase sock
        if newSocketIds.isEmpty ∧ room.sessionIds.isEmpty then
          ({ st with rooms := delk roomId st.rooms,
                     channels := chanLeave roomId sock st.channels }, [])
        else
          ({ st with
              rooms := setk roomId { room with socketIds := newSocketIds } st.rooms,
              channels := chanLeave roomId sock st.channels },
           [⟨Target.toRoomExcept roomId sock, Payload.userLeft sock none roomId⟩])
      else ({ st with channels := chanLeave roomId sock st.channels }, [])

/-- The `disconnect` handler (lines 700-758).  The socket has already left all
adapter rooms and is no longer in `io.sockets.sockets` when the handler runs;
then: update `sessionConnections`, recompute the primary socket, on the last
connection delete the session entry and run `handleSessionLeaveRoom`, then
strip the socket from every room's `socketIds` and from `userSessions`. -/
def disconnectF (st : ServerState) (sock : String) : ServerState × List Emission :=
  let st0 := { st with channels := chanLeaveAll sock st.channels,
                       connectedSockets := st.connectedSockets.erase sock }
  let userSessionId := (getk sock st0.userSessions).getD ""
  let r1 :=
    if userSessionId ≠ "" then
      match getk userSessionId st0.sessionConnections with
      | none => (st0, ([] : List Emission))
      | some conns =>
        let conns1 := conns.erase sock
        let stA := { st0 with
          sessionConnections := setk userSessionId conns1 st0.sessionConnections }
        let stB :=
          if getk userSessionId stA.sessionToSocket = some sock then
            match conns1 with
            | [] => { stA with sessionToSocket := delk userSessionId stA.sessionToSocket }
            | c :: _ => { stA with sessionToSocket := setk userSessionId c stA.sessionToSocket }
          else stA
        if conns1.isEmpty then
          let stC := { stB with
            sessionConnections := delk userSessionId stB.sessionConnections }
          let roomId := (getk userSessionId stC.userRooms).getD ""
          if roomId ≠ "" then handleSessionLeaveRoomF stC userSessionId roomId
          else (stC, [])
        else (stB, [])
    else (st0, [])
  let rooms2 := r1.1.rooms.map (fun p => (p.1, { p.2 with socketIds := p.2.socketIds.erase sock }))
  let st2 := { r1.1 with rooms := rooms2 }
  ({ st2 with userSessions := delk sock st2.userSessions }, r1.2)

/-- Lines 266-276 of the connection handler: cancel (clearTimeout + delete)
the pending cleanup of `roomId` when it belongs to this session. -/
def cancelPendingIfReconnect (st : ServerState) (roomId sessionId : String) :
    ServerState :=
  match getk roomId st.pendingRoomCleanups with
  | some entry =>
    if entry.sessionId = sessionId then
      { st with pendingRoomCleanups := delk roomId st.pendingRoomCleanups }
    else st
  | none => st

/-- The `io.on("connection")` registration block (lines 210-279): record the
socket under its auth session id, set the primary socket on first connection,
then auto-join the auth room, or re-attach to the session's current room and
cancel a matching pending cleanup. -/
def connectF (st : ServerState) (sock sessionId roomIdFromAuth : String) :
    ServerState × List Emission :=
  let st0 := { st with connectedSockets := addIfAbsent sock st.connectedSockets }
  if sessionId = "" then (st0, [])
  else
    let st1 := { st0 with userSessions := setk sock sessionId st0.userSessions }
    let conns := (getk sessionId st1.sessionConnections).getD []
    let conns1 := if sock ∈ conns then conns else conns ++ [sock]
    let st2 := { st1 with sessionConnections := setk sessionId conns1 st1.sessionConnections }
    let st3 :=
      if (getk sessionId st2.sessionToSocket).isSome then st2
      else { st2 with sessionToSocket := setk sessionId sock st2.sessionToSocket }
    if roomIdFromAuth ≠ "" then
      joinRoomF st3 sock sessionId roomIdFromAuth
    else
      let roomId := (getk sessionId st3.userRooms).getD ""
      if roomId ≠ "" then
        let st4 := { st3 with channels := chanJoin roomId sock st3.channels }
        let st5 := pushSocketId st4 roomId sock
        (cancelPendingIfReconnect st5 roomId sessionId, [])
      else (st3, [])

/-- The `session-info` handler (lines 282-316): re-register the socket when the
carried session id differs from the stored one, then join the carried room
when the session is not already recorded in it. -/
def sessionInfoF (st : ServerState) (sock sessionId roomId : String) :
    ServerState × List Emission :=
  let st1 :=
    if sessionId ≠ "" ∧ getk sock st.userSessions ≠ some sessionId then
      let stA := { st with userSessions := setk sock sessionId st.userSessions }
      let conns := (getk sessionId stA.sessionConnections).getD []
      let conns1 := if sock ∈ conns then conns else conns ++ [sock]
      let stB := { stA with sessionConnections := setk sessionId conns1 stA.sessionConnections }
      if (getk sessionId stB.sessionToSocket).isSome then stB
      else { stB with sessionToSocket := setk sessionId sock stB.sessionToSocket }
    else st
  if roomId ≠ "" ∧ (getk sessionId st1.userRooms).getD "" ≠ roomId then
    joinRoomF st1 sock sessionId roomId
  else (st1, [])

/-- The `create-room` handler (lines 394-409). -/
def createRoomF (st : ServerState) (sock roomId : String) :
    ServerState × List Emission :=
  let userSessionId := (getk sock st.userSessions).getD ""
  if userSessionId ≠ "" then joinRoomF st sock userSessionId roomId
  else (st, [])

/-- The `join-room` handler (lines 411-422). -/
def joinRoomEvtF (st : ServerState) (sock roomId : String) :
    ServerState × List Emission :=
  let userSessionId := (getk sock st.userSessions).getD ""
  if userSessionId ≠ "" then joinRoomF st sock userSessionId roomId
  else (st, [])

/-- The `media-permissions` handler (lines 319-344); reads only, no mutation. -/
def mediaPermissionsF (st : ServerState) (sock : String) (audio video : Bool) :
    ServerState × List Emission :=
  let userSessionId := (getk sock st.userSessions).getD ""
  let ems :=
    if userSessionId ≠ "" then
      let roomId := (getk userSessionId st.userRooms).getD ""
      if roomId ≠ "" then
        [⟨Target.toRoomExcept roomId sock,
          Payload.userMediaPermissions sock userSessionId audio video⟩]
      else []
    else []
  (st, ems)

/-- Inbound wire payload of the `offer` event.  The handler destructures only
the `offer` field; a flat `{type, sdp}` payload leaves `offer` absent and its
own fields unread. -/
structure OfferData where
  offer : Option SessionDescInit
  type : Option String
  sdp : Option String
  roomId : String
deriving DecidableEq

/-- Inbound wire payload of the `answer` event, mirroring `OfferData`. -/
structure AnswerData where
  answer : Option SessionDescInit
  type : Option String
  sdp : Option String
  roomId : String
deriving DecidableEq

/-- The `offer` handler (lines 631-651): re-emit `{...data.offer, fromSocketId,
fromSessionId}` to the rest of the room (spread of an absent object is empty). -/
def offerF (st : ServerState) (sock : String) (d : OfferData) :
    ServerState × List Emission :=
  let sessionId := (getk sock st.userSessions).getD ""
  (st, [⟨Target.toRoomExcept d.roomId sock,
         Payload.sdpRelay "offer" (d.offer.map SessionDescInit.type)
           (d.offer.map SessionDescInit.sdp) sock sessionId⟩])

/-- The `answer` handler (lines 653-674). -/
def answerF (st : ServerState) (sock : String) (d : AnswerData) :
    ServerState × List Emission :=
  let sessionId := (getk sock st.userSessions).getD ""
  (st, [⟨Target.toRoomExcept d.roomId sock,
         Payload.sdpRelay "answer" (d.answer.map SessionDescInit.type)
           (d.answer.map SessionDescInit.sdp) sock sessionId⟩])

/-- The `ice-candidate` handler (lines 677-692); the candidate body is relayed
opaquely, modelled as a field map. -/
def iceCandidateF (st : ServerState) (sock : String)
    (candidate : List (String × String)) (roomId : String) :
    ServerState × List Emission :=
  let sessionId := (getk sock st.userSessions).getD ""
  (st, [⟨Target.toRoomExcept roomId sock, Payload.iceRelay candidate sock sessionId⟩])

/-- The room-lookup fallback of the `speech-to-text` handler (lines 446-454):
first room, in insertion order, whose socket list contains the socket. -/
def findRoomBySocket (sock : String) : List (String × RoomData) → Option String
  | [] => none
  | (roomId, room) :: rest =>
    if sock ∈ room.socketIds then some roomId else findRoomBySocket sock rest

/-- JavaScript `String.prototype.trim`: strip whitespace from both ends
(defined over the character list so it evaluates transparently). -/
def jsTrim (s : String) : String :=
  ⟨((s.data.dropWhile Char.isWhitespace).reverse.dropWhile
      Char.isWhitespace).reverse⟩

/-- The room resolution of the `speech-to-text` handler (lines 440-463): the
session's recorded room when available, else the first room whose socket list
contains the socket; `""` models the falsy no-room outcome. -/
def sttRoomOf (st : ServerState) (sock : String) : String :=
  let userSessionId := (getk sock st.userSessions).getD ""
  let roomViaSession :=
    if userSessionId ≠ "" then (getk userSessionId st.userRooms).getD "" else ""
  if roomViaSession ≠ "" then roomViaSession
  else (findRoomBySocket sock st.rooms).getD ""

/-- The `speech-to-text` handler (lines 424-574).  External effects are oracle
inputs: `decodedLen` is the byte length of `Buffer.from(audioChunk, "base64")`
and `transcription` is the provider result (`none` models a thrown error).
The MIME-type/encoding selection only configures the provider call and is not
modelled.  Room/session bookkeeping is never mutated. -/
def speechToTextF (st : ServerState) (sock audioChunk : String)
    (decodedLen : Nat) (language : String) (transcription : Option String) :
    ServerState × List Emission :=
  let userSessionId := (getk sock st.userSessions).getD ""
  let userRoomId := sttRoomOf st sock
  let ems :=
    if userRoomId = "" then []
    else if audioChunk.length = 0 then []
    else if decodedLen = 0 then []
    else
      match transcription with
      | none => []
      | some text =>
        if jsTrim text ≠ "" then
          [⟨Target.toRoomExcept userRoomId sock,
            Payload.transcription text sock userSessionId language false⟩,
           ⟨Target.toSocket sock,
            Payload.transcription text sock userSessionId language true⟩]
        else []
  (st, ems)

/-- The `text-to-speech` handler (lines 577-628); `synthesized` is the provider
oracle (`none` models a thrown error, `some ""` an empty audio response). -/
def textToSpeechF (st : ServerState) (sock text language : String)
    (synthesized : Option String) : ServerState × List Emission :=
  let ems :=
    if jsTrim text = "" then
      [⟨Target.toSocket sock, Payload.ttsError "No text provided"⟩]
    else
      match synthesized with
      | none => [⟨Target.toSocket sock, Payload.ttsError "Failed to generate speech"⟩]
      | some audio =>
        if audio = "" then
          [⟨Target.toSocket sock, Payload.ttsError "Failed to generate audio"⟩]
        else [⟨Target.toSocket sock, Payload.ttsResponse audio language⟩]
  (st, ems)

/-- Firing of the `setTimeout` callback scheduled in `handleSessionLeaveRoom`
(lines 855-863): enabled while the pending entry's timer is alive; deletes the
room and the pending record only if the room still exists with zero occupants,
otherwise the timer is merely spent. -/
def fireCleanupF (st : ServerState) (roomId : String) :
    ServerState × List Emission :=
  match getk roomId st.pendingRoomCleanups with
  | none => (st, [])
  | some entry =>
    if entry.timerAlive then
      match getk roomId st.rooms with
      | some room =>
        if room.sessionIds.isEmpty then
          ({ st with rooms := delk roomId st.rooms,
                     pendingRoomCleanups := delk roomId st.pendingRoomCleanups }, [])
        else
          let pend2 := setk roomId { entry with timerAlive := false } st.pendingRoomCleanups
          ({ st with pendingRoomCleanups := pend2 }, [])
      | none =>
        let pend2 := setk roomId { entry with timerAlive := false } st.pendingRoomCleanups
        ({ st with pendingRoomCleanups := pend2 }, [])
    else (st, [])

/-- Response of `GET /api/check-room/:roomId`. -/
structure CheckRoomResp where
  available : Bool
  roomExists : Bool
  userCount : Option Nat
deriving DecidableEq

/-- The `GET /api/check-room/:roomId` route (lines 136-155): a pure read; the
returned state component is the untouched input state. -/
def checkRoomRoute (st : ServerState) (roomId : String) :
    ServerState × CheckRoomResp :=
  let resp :=
    match getk roomId st.rooms with
    | none => { available := true, roomExists := false,
                userCount := none : CheckRoomResp }
    | some room =>
      let isFull := decide (MAX_USERS_PER_ROOM ≤ room.sessionIds.length)
      { available := !isFull, roomExists := true,
        userCount := some room.sessionIds.length }
  (st, resp)

/-- One inbound occurrence the server reacts to: a socket event, a new
connection, a disconnection, or a scheduled cleanup timer firing. -/
inductive Event
  | connect (sock sessionId roomIdFromAuth : String)
  | sessionInfo (sock sessionId roomId : String)
  | mediaPermissions (sock : String) (audio video : Bool)
  | createRoom (sock roomId : String)
  | joinRoomEvt (sock roomId : String)
  | speechToText (sock audioChunk : String) (decodedLen : Nat)
      (language : String) (transcription : Option String)
  | textToSpeech (sock text language : String) (synthesized : Option String)
  | offerEvt (sock : String) (d : OfferData)
  | answerEvt (sock : String) (d : AnswerData)
  | iceCandidate (sock : String) (candidate : List (String × String)) (roomId : String)
  | leaveRoom (sock roomId : String)
  | disconnect (sock : String)
  | cleanupTimerFires (roomId : String)
deriving DecidableEq

/-- Dispatch of one event to its handler. -/
def stepF (st : ServerState) (e : Event) : ServerState × List Emission :=
  match e with
  | Event.connect sock sessionId roomIdFromAuth => connectF st sock sessionId roomIdFromAuth
  | Event.sessionInfo sock sessionId roomId => sessionInfoF st sock sessionId roomId
  | Event.mediaPermissions sock audio video => mediaPermissionsF st sock audio video
  | Event.createRoom sock roomId => createRoomF st sock roomId
  | Event.joinRoomEvt sock roomId => joinRoomEvtF st sock roomId
  | Event.speechToText sock chunk decodedLen language transcription =>
      speechToTextF st sock chunk decodedLen language transcription
  | Event.textToSpeech sock text language synthesized =>
      textToSpeechF st sock text language synthesized
  | Event.offerEvt sock d => offerF st sock d
  | Event.answerEvt sock d => answerF st sock d
  | Event.iceCandidate sock candidate roomId => iceCandidateF st sock candidate roomId
  | Event.leaveRoom sock roomId => handleUserLeaveRoomF st sock roomId
  | Event.disconnect sock => disconnectF st sock
  | Event.cleanupTimerFires roomId => fireCleanupF st roomId

/-- States reachable from the empty boot state through event handling. -/
inductive Reachable : ServerState → Prop
  | init : Reachable initialState
  | step (st : ServerState) (e : Event) : Reachable st → Reachable (stepF st e).1

/-- Run a concrete event trace from the boot state. -/
def runEvents (es : List Event) : ServerState :=
  es.foldl (fun st e => (stepF st e).1) initialState

theorem cancelPendingIfReconnect_rooms (st : ServerState) (roomId sessionId : String) :
    (cancelPendingIfReconnect st roomId sessionId).rooms = st.rooms := by
  unfold cancelPendingIfReconnect
  split
  · split_ifs <;> rfl
  · rfl

theorem cancelPendingIfReconnect_userSessions (st : ServerState) (roomId sessionId : String) :
    (cancelPendingIfReconnect st roomId sessionId).userSessions = st.userSessions := by
  unfold cancelPendingIfReconnect
  split
  · split_ifs <;> rfl
  · rfl

theorem cancelPendingIfReconnect_channels (st : ServerState) (roomId sessionId : String) :
    (cancelPendingIfReconnect st roomId sessionId).channels = st.channels := by
  unfold cancelPendingIfReconnect
  split
  · split_ifs <;> rfl
  · rfl

theorem getk_mem {α : Type} {k : String} {v : α} :
    ∀ {l : List (String × α)}, getk k l = some v → (k, v) ∈ l := by
  intro l
  induction l with
  | nil => intro h; simp [getk] at h
  | cons p rest ih =>
    intro h
    simp only [getk] at h
    split at h
    · rename_i heq
      cases h
      subst heq
      exact List.mem_cons_self _ _
    · exact List.mem_cons_of_mem _ (ih h)

theorem mem_setk {α : Type} {p : String × α} {k : String} {v : α} :
    ∀ {l : List (String × α)}, p ∈ setk k v l → p = (k, v) ∨ p ∈ l := by
  intro l
  induction l with
  | nil => intro h; simp [setk] at h; exact Or.inl h
  | cons q rest ih =>
    intro h
    simp only [setk] at h
    split at h
    · rcases List.mem_cons.mp h with h1 | h1
      · exact Or.inl h1
      · exact Or.inr (List.mem_cons_of_mem _ h1)
    · rcases List.mem_cons.mp h with h1 | h1
      · exact Or.inr (h1 ▸ List.mem_cons_self _ _)
      · rcases ih h1 with h2 | h2
        · exact Or.inl h2
        · exact Or.inr (List.mem_cons_of_mem _ h2)

theorem mem_delk {α : Type} {p : String × α} {k : String} {l : List (String × α)}
    (h : p ∈ delk k l) : p ∈ l :=
  (List.mem_filter.mp h).1

theorem getk_setk_self {α : Type} (k : String) (v : α) :
    ∀ (l : List (String × α)), getk k (setk k v l) = some v := by
  intro l
  induction l with
  | nil => simp [getk, setk]
  | cons q rest ih =>
    simp only [setk]
    split
    · simp [getk]
    · rename_i hne
      simp only [getk]
      rw [if_neg hne]
      exact ih

theorem getk_setk_ne {α : Type} {k1 k : String} (hne : k1 ≠ k) (v : α) :
    ∀ (l : List (String × α)), getk k1 (setk k v l) = getk k1 l := by
  intro l
  induction l with
  | nil => simp [getk, setk, Ne.symm hne]
  | cons q rest ih =>
    simp only [setk]
    split
    · rename_i heq
      simp [getk, heq, Ne.symm hne]
    · simp only [getk]
      split
      · rfl
      · exact ih

theorem delk_cons_eq {α : Type} {k : String} {q : String × α} (hq : q.1 = k)
    (rest : List (String × α)) : delk k (q :: rest) = delk k rest := by
  simp [delk, List.filter_cons, hq]

theorem delk_cons_ne {α : Type} {k : String} {q : String × α} (hq : q.1 ≠ k)
    (rest : List (String × α)) : delk k (q :: rest) = q :: delk k rest := by
  simp [delk, List.filter_cons, hq]

theorem getk_delk_self {α : Type} (k : String) :
    ∀ (l : List (String × α)), getk k (delk k l) = none := by
  intro l
  induction l with
  | nil => rfl
  | cons q rest ih =>
    by_cases hq : q.1 = k
    · rw [delk_cons_eq hq, ih]
    · rw [delk_cons_ne hq]
      simp only [getk]
      rw [if_neg hq]
      exact ih

theorem getk_delk_ne {α : Type} {k1 k : String} (hne : k1 ≠ k) :
    ∀ (l : List (String × α)), getk k1 (delk k l) = getk k1 l := by
  intro l
  induction l with
  | nil => rfl
  | cons q rest ih =>
    by_cases hq : q.1 = k
    · rw [delk_cons_eq hq, ih]
      simp only [getk]
      rw [if_neg (by rw [hq]; exact Ne.symm hne)]
    · rw [delk_cons_ne hq]
      simp only [getk]
      split
      · rfl
      · exact ih

/-- The per-room capacity invariant: the occupant identity list is duplicate
free and holds at most `MAX_USERS_PER_ROOM` identities. -/
def RoomOk (room : RoomData) : Prop :=
  room.sessionIds.Nodup ∧ room.sessionIds.length ≤ MAX_USERS_PER_ROOM

def RoomsOk (rooms : List (String × RoomData)) : Prop :=
  ∀ p ∈ rooms, RoomOk p.2

theorem roomsOk_setk {rooms : List (String × RoomData)} {k : String}
    {room : RoomData} (h : RoomsOk rooms) (hv : RoomOk room) :
    RoomsOk (setk k room rooms) := by
  intro p hp
  rcases mem_setk hp with he | hm
  · subst he; exact hv
  · exact h p hm

theorem roomsOk_delk {rooms : List (String × RoomData)} {k : String}
    (h : RoomsOk rooms) : RoomsOk (delk k rooms) :=
  fun p hp => h p (mem_delk hp)

theorem roomsOk_getk {rooms : List (String × RoomData)} {k : String}
    {room : RoomData} (h : RoomsOk rooms) (hg : getk k rooms = some room) :
    RoomOk room :=
  h _ (getk_mem hg)

theorem roomsOk_eraseSock {rooms : List (String × RoomData)} (sock : String)
    (h : RoomsOk rooms) :
    RoomsOk (rooms.map
      (fun p => (p.1, { p.2 with socketIds := p.2.socketIds.erase sock }))) := by
  intro p hp
  rcases List.mem_map.mp hp with ⟨q, hq, he⟩
  subst he
  exact h q hq

theorem roomOk_empty : RoomOk ⟨[], []⟩ :=
  ⟨List.nodup_nil, by simp [MAX_USERS_PER_ROOM]⟩

theorem roomOk_socketIds {room : RoomData} (l : List String) (h : RoomOk room) :
    RoomOk { room with socketIds := l } := h

theorem roomOk_append {room : RoomData} {sid : String} (h : RoomOk room)
    (hmem : sid ∉ room.sessionIds)
    (hlen : ¬ MAX_USERS_PER_ROOM ≤ room.sessionIds.length) :
    RoomOk { room with sessionIds := room.sessionIds ++ [sid] } := by
  constructor
  · have hperm := List.perm_append_singleton sid room.sessionIds
    exact hperm.nodup_iff.mpr (List.nodup_cons.mpr ⟨hmem, h.1⟩)
  · simp only [List.length_append, List.length_singleton]
    simp only [MAX_USERS_PER_ROOM] at hlen ⊢
    omega

theorem roomOk_erase {room : RoomData} (sid : String) (h : RoomOk room) :
    RoomOk { room with sessionIds := room.sessionIds.erase sid } := by
  have hsub := room.sessionIds.erase_sublist sid
  exact ⟨h.1.sublist hsub, le_trans hsub.length_le h.2⟩

theorem pushSocketId_rooms_ok {st : ServerState} {roomId sock : String}
    (h : RoomsOk st.rooms) : RoomsOk (pushSocketId st roomId sock).rooms := by
  unfold pushSocketId
  split
  · exact h
  · rename_i room hr
    split
    · exact h
    · exact roomsOk_setk h (roomOk_socketIds _ (roomsOk_getk h hr))

theorem pushSocketId_shape (st : ServerState) (roomId sock : String) :
    ∃ r, pushSocketId st roomId sock = { st with rooms := r } := by
  unfold pushSocketId
  split
  · exact ⟨st.rooms, rfl⟩
  · rename_i room hr
    split
    · exact ⟨st.rooms, rfl⟩
    · exact ⟨_, rfl⟩

theorem joinRoomF_rooms_ok (st : ServerState) (sock sid roomId : String)
    (h : RoomsOk st.rooms) : RoomsOk (joinRoomF st sock sid roomId).1.rooms := by
  simp only [joinRoomF]
  set rooms1 := if (getk roomId st.rooms).isSome then st.rooms
    else setk roomId (⟨[], []⟩ : RoomData) st.rooms with hr1
  have hOk1 : RoomsOk rooms1 := by
    rw [hr1]
    split
    · exact h
    · exact roomsOk_setk h roomOk_empty
  set room := (getk roomId rooms1).getD ⟨[], []⟩ with hroom
  have hRoomOk : RoomOk room := by
    rw [hroom]
    cases hg : getk roomId rooms1 with
    | none => exact roomOk_empty
    | some r => exact roomsOk_getk hOk1 hg
  split_ifs with h1 h2
  · exact pushSocketId_rooms_ok hOk1
  · exact hOk1
  · exact pushSocketId_rooms_ok
      (roomsOk_setk hOk1 (roomOk_append hRoomOk h1 h2))

theorem handleSessionLeaveRoomF_rooms_ok (st : ServerState) (sid roomId : String)
    (h : RoomsOk st.rooms) :
    RoomsOk (handleSessionLeaveRoomF st sid roomId).1.rooms := by
  simp only [handleSessionLeaveRoomF]
  split
  · exact h
  · rename_i room hr
    split_ifs with h1 h2
    · exact roomsOk_setk h (roomOk_erase sid (roomsOk_getk h hr))
    · exact roomsOk_setk h (roomOk_erase sid (roomsOk_getk h hr))
    · exact h

theorem handleUserLeaveRoomF_rooms_ok (st : ServerState) (sock roomId : String)
    (h : RoomsOk st.rooms) :
    RoomsOk (handleUserLeaveRoomF st sock roomId).1.rooms := by
  simp only [handleUserLeaveRoomF]
  split
  · exact h
  · rename_i room hr
    split_ifs with h1 h2 h3 h4 h5
    · exact handleSessionLeaveRoomF_rooms_ok st _ roomId h
    · exact roomsOk_setk h (roomOk_socketIds _ (roomsOk_getk h hr))
    · exact h
    · exact roomsOk_delk h
    · exact roomsOk_setk h (roomOk_socketIds _ (roomsOk_getk h hr))
    · exact h

theorem disconnectF_rooms_ok (st : ServerState) (sock : String)
    (h : RoomsOk st.rooms) : RoomsOk (disconnectF st sock).1.rooms := by
  simp only [disconnectF]
  apply roomsOk_eraseSock
  split_ifs with h1 h2
  · split
    · exact h
    · rename_i conns hc
      cases hce : conns.erase sock with
      | nil =>
        split_ifs with he hg
        · exact handleSessionLeaveRoomF_rooms_ok _ _ _ h
        · exact h
        · exact absurd rfl he
      | cons c tail =>
        exact h
  · split
    · exact h
    · rename_i conns hc
      cases hce : conns.erase sock with
      | nil =>
        split_ifs with he hg
        · exact handleSessionLeaveRoomF_rooms_ok _ _ _ h
        · exact h
        · exact absurd rfl he
      | cons c tail =>
        exact h
  · exact h

theorem connectF_rooms_ok (st : ServerState) (sock sessionId roomIdFromAuth : String)
    (h : RoomsOk st.rooms) :
    RoomsOk (connectF st sock sessionId roomIdFromAuth).1.rooms := by
  simp only [connectF]
  split_ifs
  all_goals try exact h
  all_goals try exact joinRoomF_rooms_ok _ _ _ _ h
  all_goals rw [cancelPendingIfReconnect_rooms]
  all_goals exact pushSocketId_rooms_ok h

theorem sessionInfoF_rooms_ok (st : ServerState) (sock sessionId roomId : String)
    (h : RoomsOk st.rooms) :
    RoomsOk (sessionInfoF st sock sessionId roomId).1.rooms := by
  simp only [sessionInfoF]
  split_ifs
  all_goals first
    | exact h
    | exact joinRoomF_rooms_ok _ _ _ _ h

theorem createRoomF_rooms_ok (st : ServerState) (sock roomId : String)
    (h : RoomsOk st.rooms) : RoomsOk (createRoomF st sock roomId).1.rooms := by
  simp only [createRoomF]
  split_ifs with h1
  · exact joinRoomF_rooms_ok _ _ _ _ h
  · exact h

theorem joinRoomEvtF_rooms_ok (st : ServerState) (sock roomId : String)
    (h : RoomsOk st.rooms) : RoomsOk (joinRoomEvtF st sock roomId).1.rooms := by
  simp only [joinRoomEvtF]
  split_ifs with h1
  · exact joinRoomF_rooms_ok _ _ _ _ h
  · exact h

theorem fireCleanupF_rooms_ok (st : ServerState) (roomId : String)
    (h : RoomsOk st.rooms) : RoomsOk (fireCleanupF st roomId).1.rooms := by
  simp only [fireCleanupF]
  split
  · exact h
  · split_ifs with h1
    · split
      · split_ifs with h2
        · exact roomsOk_delk h
        · exact h
      · exact h
    · exact h

theorem stepF_rooms_ok (st : ServerState) (e : Event)
    (h : RoomsOk st.rooms) : RoomsOk (stepF st e).1.rooms := by
  cases e with
  | connect sock sessionId roomIdFromAuth => exact connectF_rooms_ok _ _ _ _ h
  | sessionInfo sock sessionId roomId => exact sessionInfoF_rooms_ok _ _ _ _ h
  | mediaPermissions sock audio video => exact h
  | createRoom sock roomId => exact createRoomF_rooms_ok _ _ _ h
  | joinRoomEvt sock roomId => exact joinRoomEvtF_rooms_ok _ _ _ h
  | speechToText sock chunk len lang tr => exact h
  | textToSpeech sock text lang synth => exact h
  | offerEvt sock d => exact h
  | answerEvt sock d => exact h
  | iceCandidate sock cand roomId => exact h
  | leaveRoom sock roomId => exact handleUserLeaveRoomF_rooms_ok _ _ _ h
  | disconnect sock => exact disconnectF_rooms_ok _ _ h
  | cleanupTimerFires roomId => exact fireCleanupF_rooms_ok _ _ h

theorem reachable_rooms_ok (st : ServerState) (h : Reachable st) :
    RoomsOk st.rooms := by
  induction h with
  | init => intro p hp; cases hp
  | step st1 e h1 ih => exact stepF_rooms_ok st1 e ih

theorem mem_addIfAbsent_self (x : String) (l : List String) :
    x ∈ addIfAbsent x l := by
  unfold addIfAbsent
  split
  · assumption
  · simp

theorem mem_addIfAbsent_of_mem {c : String} (x : String) {l : List String}
    (h : c ∈ l) : c ∈ addIfAbsent x l := by
  unfold addIfAbsent
  split
  · exact h
  · exact List.mem_append_left _ h

theorem getk_chanLeaveAll (k s2 : String) :
    ∀ (l : List (String × List String)),
      getk k (l.map (fun p => (p.1, p.2.erase s2)))
        = (getk k l).map (fun m => m.erase s2) := by
  intro l
  induction l with
  | nil => rfl
  | cons q rest ih =>
    simp only [List.map_cons, getk]
    split
    · rfl
    · exact ih

theorem chanJoin_mem_preserved {c roomId : String} (r2 s2 : String)
    {channels : List (String × List String)}
    (h : c ∈ (getk roomId channels).getD []) :
    c ∈ (getk roomId (chanJoin r2 s2 channels)).getD [] := by
  unfold chanJoin
  by_cases hr : roomId = r2
  · subst hr
    rw [getk_setk_self]
    exact mem_addIfAbsent_of_mem s2 h
  · rw [getk_setk_ne hr]
    exact h

theorem chanLeave_mem_preserved {c roomId s2 : String} (r2 : String)
    {channels : List (String × List String)} (hc : c ≠ s2)
    (h : c ∈ (getk roomId channels).getD []) :
    c ∈ (getk roomId (chanLeave r2 s2 channels)).getD [] := by
  unfold chanLeave
  split
  · exact h
  · rename_i members hm
    by_cases hr : roomId = r2
    · subst hr
      rw [getk_setk_self]
      rw [hm] at h
      exact (List.mem_erase_of_ne hc).mpr h
    · rw [getk_setk_ne hr]
      exact h

theorem chanLeaveAll_mem_preserved {c roomId s2 : String}
    {channels : List (String × List String)} (hc : c ≠ s2)
    (h : c ∈ (getk roomId channels).getD []) :
    c ∈ (getk roomId (chanLeaveAll s2 channels)).getD [] := by
  unfold chanLeaveAll
  rw [getk_chanLeaveAll]
  cases hg : getk roomId channels with
  | none => rw [hg] at h; simp at h
  | some members =>
    rw [hg] at h
    simp only [Option.map_some, Option.getD_some] at h ⊢
    exact (List.mem_erase_of_ne hc).mpr h

theorem pushSocketId_channels (st : ServerState) (roomId sock : String) :
    (pushSocketId st roomId sock).channels = st.channels := by
  obtain ⟨r, hr⟩ := pushSocketId_shape st roomId sock
  rw [hr]

theorem pushSocketId_userSessions (st : ServerState) (roomId sock : String) :
    (pushSocketId st roomId sock).userSessions = st.userSessions := by
  obtain ⟨r, hr⟩ := pushSocketId_shape st roomId sock
  rw [hr]

theorem pushSocketId_pendings (st : ServerState) (roomId sock : String) :
    (pushSocketId st roomId sock).pendingRoomCleanups = st.pendingRoomCleanups := by
  obtain ⟨r, hr⟩ := pushSocketId_shape st roomId sock
  rw [hr]

theorem joinRoomF_channels (st : ServerState) (sock sid roomId : String) :
    (joinRoomF st sock sid roomId).1.channels = chanJoin roomId sock st.channels := by
  simp only [joinRoomF]
  split_ifs
  all_goals first | rfl | rw [pushSocketId_channels]

theorem joinRoomF_userSessions (st : ServerState) (sock sid roomId : String) :
    (joinRoomF st sock sid roomId).1.userSessions = st.userSessions := by
  simp only [joinRoomF]
  split_ifs
  all_goals first | rfl | rw [pushSocketId_userSessions]

theorem joinRoomF_pendings (st : ServerState) (sock sid roomId : String) :
    (joinRoomF st sock sid roomId).1.pendingRoomCleanups = st.pendingRoomCleanups := by
  simp only [joinRoomF]
  split_ifs
  all_goals first | rfl | rw [pushSocketId_pendings]

theorem pushSocketId_getk_sessionIds (st : ServerState) (roomId sock r : String) :
    (getk r (pushSocketId st roomId sock).rooms).map RoomData.sessionIds
      = (getk r st.rooms).map RoomData.sessionIds := by
  simp only [pushSocketId]
  split
  · rfl
  · rename_i room hr
    split
    · rfl
    · by_cases h2 : r = roomId
      · subst h2
        show (getk r (setk r _ st.rooms)).map _ = _
        rw [getk_setk_self, hr]
        rfl
      · show (getk r (setk roomId _ st.rooms)).map _ = _
        rw [getk_setk_ne h2]

theorem pushSocketId_mem (st : ServerState) (roomId sock : String)
    (room : RoomData) (hr : getk roomId st.rooms = some room) :
    ∃ room2, getk roomId (pushSocketId st roomId sock).rooms = some room2 ∧
      sock ∈ room2.socketIds ∧ room2.sessionIds = room.sessionIds := by
  simp only [pushSocketId, hr]
  split_ifs with h1
  · exact ⟨room, hr, h1, rfl⟩
  · refine ⟨{ room with socketIds := room.socketIds ++ [sock] }, ?_, ?_, rfl⟩
    · exact getk_setk_self roomId _ st.rooms
    · simp

/-- Branch (b) of `joinRoom`: the room exists and is full and the session is
not an occupant.  Only `socket.join` happens, plus the `room-full` unicast. -/
theorem joinRoomF_full_eq (st : ServerState) (sock sid roomId : String)
    (room : RoomData) (hr : getk roomId st.rooms = some room)
    (hmem : sid ∉ room.sessionIds)
    (hfull : MAX_USERS_PER_ROOM ≤ room.sessionIds.length) :
    joinRoomF st sock sid roomId =
      ({ st with channels := chanJoin roomId sock st.channels },
       [⟨Target.toSocket sock, Payload.roomFull roomId⟩]) := by
  simp only [joinRoomF, hr, Option.isSome_some, if_true, Option.getD_some]
  rw [if_neg hmem, if_pos hfull]

/-- Branch (a) of `joinRoom`: the session is already an occupant. -/
theorem joinRoomF_already_eq (st : ServerState) (sock sid roomId : String)
    (room : RoomData) (hr : getk roomId st.rooms = some room)
    (hmem : sid ∈ room.sessionIds) :
    joinRoomF st sock sid roomId =
      (pushSocketId { st with channels := chanJoin roomId sock st.channels }
        roomId sock, []) := by
  simp only [joinRoomF, hr, Option.isSome_some, if_true, Option.getD_some]
  rw [if_pos hmem]

/-- The became-empty branch of `handleSessionLeaveRoom`: the room is kept
(with an empty occupant list) and a fresh pending cleanup with the fixed
`ROOM_CLEANUP_DELAY` replaces any existing one. -/
theorem handleSessionLeaveRoomF_empty_eq (st : ServerState) (sid roomId : String)
    (room : RoomData) (hr : getk roomId st.rooms = some room)
    (hmem : sid ∈ room.sessionIds)
    (hempty : room.sessionIds.erase sid = []) :
    handleSessionLeaveRoomF st sid roomId =
      ({ st with
          rooms := setk roomId { room with sessionIds := room.sessionIds.erase sid } st.rooms,
          userRooms := delk sid st.userRooms,
          pendingRoomCleanups :=
            setk roomId ⟨sid, ROOM_CLEANUP_DELAY, true⟩
              (delk roomId st.pendingRoomCleanups) }, []) := by
  simp only [handleSessionLeaveRoomF, hr]
  rw [if_pos hmem, if_pos (by rw [hempty]; rfl)]

/-- The still-occupied branch of `handleSessionLeaveRoom`: the occupant is
removed and `user-left` is emitted through each still-connected socket of the
leaving session. -/
theorem handleSessionLeaveRoomF_nonempty_eq (st : ServerState) (sid roomId : String)
    (room : RoomData) (hr : getk roomId st.rooms = some room)
    (hmem : sid ∈ room.sessionIds)
    (hne : ¬ room.sessionIds.erase sid = []) :
    handleSessionLeaveRoomF st sid roomId =
      (let st1 : ServerState := { st with
          rooms := setk roomId { room with sessionIds := room.sessionIds.erase sid } st.rooms,
          userRooms := delk sid st.userRooms }
       (st1, (getSocketIdsBySessionId st1 sid).filterMap (fun sockId =>
          if sockId ∈ st1.connectedSockets then
            some ⟨Target.toRoomExcept roomId sockId,
                  Payload.userLeft sockId (some sid) roomId⟩
          else none))) := by
  simp only [handleSessionLeaveRoomF, hr]
  rw [if_pos hmem, if_neg (by simpa using hne)]

/-- Firing the cleanup timer deletes the room only when the room still exists
with zero occupants; in every other situation the room table is untouched. -/
theorem fireCleanupF_rooms_cases (st : ServerState) (roomId : String) :
    (fireCleanupF st roomId).1.rooms = st.rooms ∨
      (∃ room, getk roomId st.rooms = some room ∧ room.sessionIds = [] ∧
        (fireCleanupF st roomId).1.rooms = delk roomId st.rooms) := by
  simp only [fireCleanupF]
  split
  · exact Or.inl rfl
  · rename_i entry hp
    split_ifs with h1
    · split
      · rename_i room hr
        split_ifs with h2
        · exact Or.inr ⟨room, hr, List.isEmpty_iff.mp h2, rfl⟩
        · exact Or.inl rfl
      · exact Or.inl rfl
    · exact Or.inl rfl

/-- Firing the cleanup timer never deletes a room that has an occupant. -/
theorem fireCleanupF_occupied_preserved (st : ServerState) (roomId : String)
    (room : RoomData) (hr : getk roomId st.rooms = some room)
    (hne : room.sessionIds ≠ []) :
    getk roomId (fireCleanupF st roomId).1.rooms = some room := by
  rcases fireCleanupF_rooms_cases st roomId with h | ⟨room2, hr2, hemp, h⟩
  · rw [h, hr]
  · rw [hr2] at hr
    cases hr
    exact absurd hemp hne

/-- Firing the cleanup timer on a still-existing, still-empty room deletes it. -/
theorem fireCleanupF_empty_deletes (st : ServerState) (roomId : String)
    (entry : CleanupEntry) (room : RoomData)
    (hp : getk roomId st.pendingRoomCleanups = some entry)
    (halive : entry.timerAlive = true)
    (hr : getk roomId st.rooms = some room)
    (hemp : room.sessionIds = []) :
    getk roomId (fireCleanupF st roomId).1.rooms = none := by
  simp only [fireCleanupF, hp, hr]
  rw [if_pos halive, if_pos (by rw [hemp]; rfl)]
  exact getk_delk_self roomId st.rooms

theorem handleSessionLeaveRoomF_userSessions (st : ServerState) (sid roomId : String) :
    (handleSessionLeaveRoomF st sid roomId).1.userSessions = st.userSessions := by
  simp only [handleSessionLeaveRoomF]
  split
  · rfl
  · split_ifs <;> rfl

theorem handleSessionLeaveRoomF_channels (st : ServerState) (sid roomId : String) :
    (handleSessionLeaveRoomF st sid roomId).1.channels = st.channels := by
  simp only [handleSessionLeaveRoomF]
  split
  · rfl
  · split_ifs <;> rfl

theorem handleSessionLeaveRoomF_connectedSockets (st : ServerState) (sid roomId : String) :
    (handleSessionLeaveRoomF st sid roomId).1.connectedSockets = st.connectedSockets := by
  simp only [handleSessionLeaveRoomF]
  split
  · rfl
  · split_ifs <;> rfl

theorem handleUserLeaveRoomF_userSessions (st : ServerState) (sock roomId : String) :
    (handleUserLeaveRoomF st sock roomId).1.userSessions = st.userSessions := by
  simp only [handleUserLeaveRoomF]
  split
  · rfl
  · split_ifs <;>
      first
        | rfl
        | (show (handleSessionLeaveRoomF st _ roomId).1.userSessions = st.userSessions
           exact handleSessionLeaveRoomF_userSessions st _ roomId)

theorem handleUserLeaveRoomF_channels_cases (st : ServerState) (sock roomId : String) :
    (handleUserLeaveRoomF st sock roomId).1.channels = st.channels ∨
      (handleUserLeaveRoomF st sock roomId).1.channels
        = chanLeave roomId sock st.channels := by
  simp only [handleUserLeaveRoomF]
  split
  · exact Or.inl rfl
  · split_ifs <;>
      first
        | exact Or.inr rfl
        | exact Or.inr (by rw [show ((handleSessionLeaveRoomF st _ roomId).1.channels)
            = st.channels from handleSessionLeaveRoomF_channels st _ roomId])

theorem joinRoomF_connectedSockets (st : ServerState) (sock sid roomId : String) :
    (joinRoomF st sock sid roomId).1.connectedSockets = st.connectedSockets := by
  simp only [joinRoomF]
  split_ifs
  all_goals first
    | rfl
    | (obtain ⟨r2, hr2⟩ := pushSocketId_shape _ roomId sock; rw [hr2])

theorem disconnectF_userSessions (st : ServerState) (sock : String) :
    (disconnectF st sock).1.userSessions = delk sock st.userSessions := by
  simp only [disconnectF]
  split_ifs with h1 h2
  · split
    · rfl
    · rename_i conns hc
      cases hce : conns.erase sock with
      | nil =>
        split_ifs with he hg
        · show delk sock (handleSessionLeaveRoomF _ _ _).1.userSessions = _
          rw [handleSessionLeaveRoomF_userSessions]
        · rfl
        · exact absurd rfl he
      | cons c tail => rfl
  · split
    · rfl
    · rename_i conns hc
      cases hce : conns.erase sock with
      | nil =>
        split_ifs with he hg
        · show delk sock (handleSessionLeaveRoomF _ _ _).1.userSessions = _
          rw [handleSessionLeaveRoomF_userSessions]
        · rfl
        · exact absurd rfl he
      | cons c tail => rfl
  · rfl

theorem disconnectF_channels (st : ServerState) (sock : String) :
    (disconnectF st sock).1.channels = chanLeaveAll sock st.channels := by
  simp only [disconnectF]
  split_ifs with h1 h2
  · split
    · rfl
    · rename_i conns hc
      cases hce : conns.erase sock with
      | nil =>
        split_ifs with he hg
        · show (handleSessionLeaveRoomF _ _ _).1.channels = _
          rw [handleSessionLeaveRoomF_channels]
        · rfl
        · exact absurd rfl he
      | cons c tail => rfl
  · split
    · rfl
    · rename_i conns hc
      cases hce : conns.erase sock with
      | nil =>
        split_ifs with he hg
        · show (handleSessionLeaveRoomF _ _ _).1.channels = _
          rw [handleSessionLeaveRoomF_channels]
        · rfl
        · exact absurd rfl he
      | cons c tail => rfl
  · rfl

theorem fireCleanupF_userSessions (st : ServerState) (roomId : String) :
    (fireCleanupF st roomId).1.userSessions = st.userSessions := by
  simp only [fireCleanupF]
  split
  · rfl
  · split_ifs with h1
    · split
      · split_ifs <;> rfl
      · rfl
    · rfl

theorem fireCleanupF_channels (st : ServerState) (roomId : String) :
    (fireCleanupF st roomId).1.channels = st.channels := by
  simp only [fireCleanupF]
  split
  · rfl
  · split_ifs with h1
    · split
      · split_ifs <;> rfl
      · rfl
    · rfl

theorem connectF_userSessions (st : ServerState) (sock sessionId roomIdFromAuth : String) :
    (connectF st sock sessionId roomIdFromAuth).1.userSessions
      = if sessionId = "" then st.userSessions
        else setk sock sessionId st.userSessions := by
  by_cases h1 : sessionId = ""
  · simp only [connectF, if_pos h1]
  · simp only [connectF, if_neg h1]
    split_ifs
    all_goals first
      | rfl
      | rw [joinRoomF_userSessions]
      | rw [cancelPendingIfReconnect_userSessions, pushSocketId_userSessions]

theorem connectF_channels_cases (st : ServerState) (sock sessionId roomIdFromAuth : String) :
    (connectF st sock sessionId roomIdFromAuth).1.channels = st.channels ∨
      ∃ r0, (connectF st sock sessionId roomIdFromAuth).1.channels
        = chanJoin r0 sock st.channels := by
  simp only [connectF]
  split_ifs
  all_goals first
    | exact Or.inl rfl
    | exact Or.inr ⟨_, by rw [joinRoomF_channels]⟩
    | exact Or.inr ⟨_, by
        rw [cancelPendingIfReconnect_channels, pushSocketId_channels]⟩

theorem sessionInfoF_userSessions (st : ServerState) (sock sessionId roomId : String) :
    (sessionInfoF st sock sessionId roomId).1.userSessions
      = if sessionId ≠ "" ∧ getk sock st.userSessions ≠ some sessionId
        then setk sock sessionId st.userSessions else st.userSessions := by
  simp only [sessionInfoF]
  split_ifs with h1 h2 h3 h4 <;>
    first
      | rfl
      | rw [joinRoomF_userSessions]

theorem sessionInfoF_channels_cases (st : ServerState) (sock sessionId roomId : String) :
    (sessionInfoF st sock sessionId roomId).1.channels = st.channels ∨
      (sessionInfoF st sock sessionId roomId).1.channels
        = chanJoin roomId sock st.channels := by
  simp only [sessionInfoF]
  split_ifs
  all_goals first
    | exact Or.inl rfl
    | exact Or.inr (by rw [joinRoomF_channels])

theorem createRoomF_userSessions (st : ServerState) (sock roomId : String) :
    (createRoomF st sock roomId).1.userSessions = st.userSessions := by
  simp only [createRoomF]
  split_ifs
  · rw [joinRoomF_userSessions]
  · rfl

theorem createRoomF_channels_cases (st : ServerState) (sock roomId : String) :
    (createRoomF st sock roomId).1.channels = st.channels ∨
      (createRoomF st sock roomId).1.channels = chanJoin roomId sock st.channels := by
  simp only [createRoomF]
  split_ifs
  · exact Or.inr (by rw [joinRoomF_channels])
  · exact Or.inl rfl

theorem joinRoomEvtF_userSessions (st : ServerState) (sock roomId : String) :
    (joinRoomEvtF st sock roomId).1.userSessions = st.userSessions := by
  simp only [joinRoomEvtF]
  split_ifs
  · rw [joinRoomF_userSessions]
  · rfl

theorem joinRoomEvtF_channels_cases (st : ServerState) (sock roomId : String) :
    (joinRoomEvtF st sock roomId).1.channels = st.channels ∨
      (joinRoomEvtF st sock roomId).1.channels = chanJoin roomId sock st.channels := by
  simp only [joinRoomEvtF]
  split_ifs
  · exact Or.inr (by rw [joinRoomF_channels])
  · exact Or.inl rfl

/-- A socket stays in a transport broadcast group across any event that is
neither its own `leave-room` nor its own disconnect. -/
theorem stepF_chanMember_preserved (st : ServerState) (e : Event)
    (c roomId : String) (h : c ∈ (getk roomId st.channels).getD [])
    (hleave : ∀ r2, e ≠ Event.leaveRoom c r2)
    (hdisc : e ≠ Event.disconnect c) :
    c ∈ (getk roomId (stepF st e).1.channels).getD [] := by
  cases e with
  | connect sock s r =>
    simp only [stepF]
    rcases connectF_channels_cases st sock s r with hc | ⟨r0, hc⟩
    · rw [hc]; exact h
    · rw [hc]; exact chanJoin_mem_preserved r0 sock h
  | sessionInfo sock s r =>
    simp only [stepF]
    rcases sessionInfoF_channels_cases st sock s r with hc | hc
    · rw [hc]; exact h
    · rw [hc]; exact chanJoin_mem_preserved r sock h
  | mediaPermissions sock audio video => exact h
  | createRoom sock r =>
    simp only [stepF]
    rcases createRoomF_channels_cases st sock r with hc | hc
    · rw [hc]; exact h
    · rw [hc]; exact chanJoin_mem_preserved r sock h
  | joinRoomEvt sock r =>
    simp only [stepF]
    rcases joinRoomEvtF_channels_cases st sock r with hc | hc
    · rw [hc]; exact h
    · rw [hc]; exact chanJoin_mem_preserved r sock h
  | speechToText sock chunk len lang tr => exact h
  | textToSpeech sock text lang synth => exact h
  | offerEvt sock d => exact h
  | answerEvt sock d => exact h
  | iceCandidate sock cand r => exact h
  | leaveRoom sock r =>
    have hcs : c ≠ sock := fun he => hleave r (by rw [he])
    simp only [stepF]
    rcases handleUserLeaveRoomF_channels_cases st sock r with hc | hc
    · rw [hc]; exact h
    · rw [hc]; exact chanLeave_mem_preserved r hcs h
  | disconnect sock =>
    have hcs : c ≠ sock := fun he => hdisc (by rw [he])
    simp only [stepF]
    rw [disconnectF_channels]
    exact chanLeaveAll_mem_preserved hcs h
  | cleanupTimerFires r =>
    simp only [stepF]
    rw [fireCleanupF_channels]
    exact h

/-- Concrete state: socket s1 with identity u1 and socket s2 with identity u2
both connected with auth room R; R holds two occupants. -/
def demoFull : ServerState :=
  runEvents [Event.connect "s1" "u1" "R", Event.connect "s2" "u2" "R"]

/-- Concrete state: u1 created R alone through socket s1. -/
def demoSolo : ServerState :=
  runEvents [Event.connect "s1" "u1" "R"]

/-- Concrete state: u1 occupied R, fully disconnected (scheduling a cleanup),
then reconnected through socket s2 and rejoined R via `joinRoom`; the pending
cleanup entry is still present. -/
def demoRejoined : ServerState :=
  runEvents [Event.connect "s1" "u1" "R", Event.disconnect "s1",
             Event.connect "s2" "u1" "R"]

/-- C1: at every reachable state every room's occupant-identity set has size
at most 2 (the occupant list is duplicate free and of length ≤ 2); a join
attempt by a third distinct identity on a room with 2 occupants emits exactly
one `room-full`, unicast to the requesting connection only, and leaves the
room record unchanged; a join by an identity already in the occupant set emits
nothing and leaves the occupant set unchanged. -/
theorem C1_capacity_invariant :
    (∀ st, Reachable st → ∀ p ∈ st.rooms,
        p.2.sessionIds.Nodup ∧ p.2.sessionIds.length ≤ 2) ∧
    (∀ st sock sid roomId room, getk roomId st.rooms = some room →
        sid ∉ room.sessionIds → 2 ≤ room.sessionIds.length →
        (joinRoomF st sock sid roomId).2
            = [⟨Target.toSocket sock, Payload.roomFull roomId⟩] ∧
        getk roomId (joinRoomF st sock sid roomId).1.rooms = some room ∧
        (∀ chans c, deliversTo chans
            ⟨Target.toSocket sock, Payload.roomFull roomId⟩ c = true → c = sock)) ∧
    (∀ st sock sid roomId room, getk roomId st.rooms = some room →
        sid ∈ room.sessionIds →
        (joinRoomF st sock sid roomId).2 = [] ∧
        (getk roomId (joinRoomF st sock sid roomId).1.rooms).map RoomData.sessionIds
          = some room.sessionIds) := by
  refine ⟨?_, ?_, ?_⟩
  · intro st h p hp
    exact reachable_rooms_ok st h p hp
  · intro st sock sid roomId room hr hmem hfull
    have heq := joinRoomF_full_eq st sock sid roomId room hr hmem hfull
    refine ⟨by rw [heq], by rw [heq]; exact hr, ?_⟩
    intro chans c hc
    simpa [deliversTo] using hc
  · intro st sock sid roomId room hr hmem
    have heq := joinRoomF_already_eq st sock sid roomId room hr hmem
    refine ⟨by rw [heq], ?_⟩
    rw [heq, pushSocketId_getk_sessionIds]
    show (getk roomId st.rooms).map _ = _
    rw [hr]
    rfl

/-- Witness for C1 at concrete inputs. -/
theorem C1_capacity_invariant_witness :
    (∀ p ∈ demoSolo.rooms, p.2.sessionIds.Nodup ∧ p.2.sessionIds.length ≤ 2) ∧
    (joinRoomF demoFull "s3" "u3" "R").2
        = [⟨Target.toSocket "s3", Payload.roomFull "R"⟩] ∧
    (joinRoomF demoFull "s3" "u1" "R").2 = [] :=
  ⟨C1_capacity_invariant.1 demoSolo
      (Reachable.step initialState (Event.connect "s1" "u1" "R") Reachable.init),
   (C1_capacity_invariant.2.1 demoFull "s3" "u3" "R" ⟨["u1", "u2"], ["s1", "s2"]⟩
      (by decide) (by decide) (by decide)).1,
   (C1_capacity_invariant.2.2 demoFull "s3" "u1" "R" ⟨["u1", "u2"], ["s1", "s2"]⟩
      (by decide) (by decide)).1⟩

/-- C2 (documenting the code bug): when socket s1 — the only connection of
occupant u1 — disconnects while room R still holds occupant u2 with live
connection s2, the disconnect handler emits nothing at all (the `user-left`
loop in `handleSessionLeaveRoom` iterates over the leaving session's
connection list, which the disconnect handler has already deleted), although
u1 is removed from the room and s2 remains in the broadcast group. -/
theorem C2_disconnect_emits_no_user_left :
    getk "R" demoFull.rooms = some ⟨["u1", "u2"], ["s1", "s2"]⟩ ∧
    (stepF demoFull (Event.disconnect "s1")).2 = [] ∧
    getk "R" (stepF demoFull (Event.disconnect "s1")).1.rooms
        = some ⟨["u2"], ["s2"]⟩ ∧
    "s2" ∈ (getk "R" (stepF demoFull (Event.disconnect "s1")).1.channels).getD []
    := by decide

/-- C3 counterexample: in a reachable state where identity u1 already occupies
room R while a pending eviction for (R, u1) exists, a join from the new
connection s3 attaches the connection and keeps the occupant count at 1, but
does not cancel the pending eviction — refuting "always cancels any pending
eviction for that identity on that room". -/
theorem C3_counterexample :
    getk "R" demoRejoined.rooms = some ⟨["u1"], ["s2"]⟩ ∧
    getk "R" demoRejoined.pendingRoomCleanups
        = some ⟨"u1", 20000, true⟩ ∧
    getk "R" (stepF demoRejoined (Event.connect "s3" "u1" "R")).1.rooms
        = some ⟨["u1"], ["s2", "s3"]⟩ ∧
    getk "R" (stepF demoRejoined (Event.connect "s3" "u1" "R")).1.pendingRoomCleanups
        = some ⟨"u1", 20000, true⟩ := by decide

/-- C3 amended: joining a room the identity already occupies, from a new
connection, never increases the occupant count (the occupant list is
unchanged), attaches the connection to the room's socket list, and emits
nothing; however the join procedure leaves `pendingRoomCleanups` untouched —
pending evictions are cancelled only by the connection-registration path, not
by the join. -/
theorem C3_reconnect_join :
    ∀ st sock sid roomId room, getk roomId st.rooms = some room →
      sid ∈ room.sessionIds →
      (getk roomId (joinRoomF st sock sid roomId).1.rooms).map RoomData.sessionIds
          = some room.sessionIds ∧
      (∃ room2, getk roomId (joinRoomF st sock sid roomId).1.rooms = some room2 ∧
          sock ∈ room2.socketIds ∧ room2.sessionIds = room.sessionIds) ∧
      (joinRoomF st sock sid roomId).1.pendingRoomCleanups
          = st.pendingRoomCleanups ∧
      (joinRoomF st sock sid roomId).2 = [] := by
  intro st sock sid roomId room hr hmem
  have heq := joinRoomF_already_eq st sock sid roomId room hr hmem
  refine ⟨?_, ?_, joinRoomF_pendings st sock sid roomId, by rw [heq]⟩
  · rw [heq, pushSocketId_getk_sessionIds]
    show (getk roomId st.rooms).map _ = _
    rw [hr]
    rfl
  · rw [heq]
    exact pushSocketId_mem _ roomId sock room hr

/-- Witness for the amended C3 at concrete inputs. -/
theorem C3_reconnect_join_witness :
    (getk "R" (joinRoomF demoRejoined "s3" "u1" "R").1.rooms).map
        RoomData.sessionIds = some ["u1"] ∧
    (joinRoomF demoRejoined "s3" "u1" "R").1.pendingRoomCleanups
        = demoRejoined.pendingRoomCleanups :=
  have h := C3_reconnect_join demoRejoined "s3" "u1" "R" ⟨["u1"], ["s2"]⟩
    (by decide) (by decide)
  ⟨h.1, h.2.2.1⟩

/-- C4: when a room's occupant set becomes empty the room is kept (with an
empty occupant list) and a pending cleanup carrying the fixed 20-second delay
is installed, replacing any previous entry for that room; the timer callback
deletes the room only when it still exists with zero occupants, and in
particular never deletes a room that has been repopulated. -/
theorem C4_grace_timer :
    ROOM_CLEANUP_DELAY = 20000 ∧
    (∀ st sid roomId room, getk roomId st.rooms = some room →
        sid ∈ room.sessionIds → room.sessionIds.erase sid = [] →
        getk roomId (handleSessionLeaveRoomF st sid roomId).1.rooms
            = some { room with sessionIds := room.sessionIds.erase sid } ∧
        getk roomId (handleSessionLeaveRoomF st sid roomId).1.pendingRoomCleanups
            = some ⟨sid, ROOM_CLEANUP_DELAY, true⟩) ∧
    (∀ st roomId, (fireCleanupF st roomId).1.rooms = st.rooms ∨
        ∃ room, getk roomId st.rooms = some room ∧ room.sessionIds = [] ∧
          (fireCleanupF st roomId).1.rooms = delk roomId st.rooms) ∧
    (∀ st roomId room, getk roomId st.rooms = some room → room.sessionIds ≠ [] →
        getk roomId (fireCleanupF st roomId).1.rooms = some room) := by
  refine ⟨rfl, ?_, fireCleanupF_rooms_cases, fireCleanupF_occupied_preserved⟩
  intro st sid roomId room hr hmem hempty
  have heq := handleSessionLeaveRoomF_empty_eq st sid roomId room hr hmem hempty
  constructor
  · rw [heq]
    exact getk_setk_self roomId _ st.rooms
  · rw [heq]
    exact getk_setk_self roomId _ (delk roomId st.pendingRoomCleanups)

/-- Witness for C4 at concrete inputs. -/
theorem C4_grace_timer_witness :
    getk "R" (handleSessionLeaveRoomF demoSolo "u1" "R").1.pendingRoomCleanups
        = some ⟨"u1", ROOM_CLEANUP_DELAY, true⟩ ∧
    getk "R" (fireCleanupF demoRejoined "R").1.rooms = some ⟨["u1"], ["s2"]⟩ :=
  ⟨(C4_grace_timer.2.1 demoSolo "u1" "R" ⟨["u1"], ["s1"]⟩
      (by decide) (by decide) (by decide)).2,
   C4_grace_timer.2.2.2 demoRejoined "R" ⟨["u1"], ["s2"]⟩ (by decide) (by decide)⟩

/-- C5 counterexample: a flat `{type, sdp}` offer payload (the `offer` field
absent) is re-emitted with only the sender tags — the original `type` and
`sdp` are dropped, refuting "in every case ... contains the original type and
sdp fields". -/
theorem C5_counterexample :
    (offerF demoFull "s1" ⟨none, some "offer", some "v=0", "R"⟩).2
        = [⟨Target.toRoomExcept "R" "s1",
            Payload.sdpRelay "offer" none none "s1" "u1"⟩] ∧
    ∀ e ∈ (offerF demoFull "s1" ⟨none, some "offer", some "v=0", "R"⟩).2,
      e.payload ≠ Payload.sdpRelay "offer" (some "offer") (some "v=0") "s1" "u1"
    := by decide

/-- C5 amended: the offer and answer handlers always re-emit one flattened
payload to the other connections of the room, carrying the sender's socket id
and identity; the `type` and `sdp` fields are preserved exactly when the input
uses the nested `{offer:{type,sdp}}` / `{answer:{type,sdp}}` shape — a flat
`{type, sdp}` input is re-emitted without them. -/
theorem C5_sdp_relay :
    (∀ st sock d, (offerF st sock d).1 = st ∧ (offerF st sock d).2
        = [⟨Target.toRoomExcept d.roomId sock,
            Payload.sdpRelay "offer" (d.offer.map SessionDescInit.type)
              (d.offer.map SessionDescInit.sdp) sock
              ((getk sock st.userSessions).getD "")⟩]) ∧
    (∀ st sock d o, d.offer = some o → (offerF st sock d).2
        = [⟨Target.toRoomExcept d.roomId sock,
            Payload.sdpRelay "offer" (some o.type) (some o.sdp) sock
              ((getk sock st.userSessions).getD "")⟩]) ∧
    (∀ st sock d, (answerF st sock d).1 = st ∧ (answerF st sock d).2
        = [⟨Target.toRoomExcept d.roomId sock,
            Payload.sdpRelay "answer" (d.answer.map SessionDescInit.type)
              (d.answer.map SessionDescInit.sdp) sock
              ((getk sock st.userSessions).getD "")⟩]) ∧
    (∀ st sock d o, d.answer = some o → (answerF st sock d).2
        = [⟨Target.toRoomExcept d.roomId sock,
            Payload.sdpRelay "answer" (some o.type) (some o.sdp) sock
              ((getk sock st.userSessions).getD "")⟩]) := by
  refine ⟨fun st sock d => ⟨rfl, rfl⟩, ?_, fun st sock d => ⟨rfl, rfl⟩, ?_⟩
  · intro st sock d o ho
    simp [offerF, ho]
  · intro st sock d o ho
    simp [answerF, ho]

/-- Witness for the amended C5 at concrete inputs. -/
theorem C5_sdp_relay_witness :
    (offerF demoFull "s1" ⟨some ⟨"offer", "v=0"⟩, none, none, "R"⟩).2
        = [⟨Target.toRoomExcept "R" "s1",
            Payload.sdpRelay "offer" (some "offer") (some "v=0") "s1"
              ((getk "s1" demoFull.userSessions).getD "")⟩] :=
  C5_sdp_relay.2.1 demoFull "s1" ⟨some ⟨"offer", "v=0"⟩, none, none, "R"⟩
    ⟨"offer", "v=0"⟩ rfl

/-- C6: a speech-to-text event whose transcription result is non-empty, from a
connection resolved to a room, yields exactly two `transcription` emissions —
one broadcast to the room excluding the sender with `isOwnMessage = false`,
then one unicast to the sender with `isOwnMessage = true`; when the connection
resolves to no room, or the transcription is empty or errored, zero emissions
occur.  A room broadcast is delivered exactly to the other members of the
transport group. -/
theorem C6_transcription_duplication :
    (∀ st sock chunk len lang text, sttRoomOf st sock ≠ "" →
        chunk.length ≠ 0 → len ≠ 0 → jsTrim text ≠ "" →
        (speechToTextF st sock chunk len lang (some text)).2
          = [⟨Target.toRoomExcept (sttRoomOf st sock) sock,
              Payload.transcription text sock
                ((getk sock st.userSessions).getD "") lang false⟩,
             ⟨Target.toSocket sock,
              Payload.transcription text sock
                ((getk sock st.userSessions).getD "") lang true⟩]) ∧
    (∀ st sock chunk len lang tr, sttRoomOf st sock = "" →
        (speechToTextF st sock chunk len lang tr).2 = []) ∧
    (∀ st sock chunk len lang text, jsTrim text = "" →
        (speechToTextF st sock chunk len lang (some text)).2 = []) ∧
    (∀ st sock chunk len lang, (speechToTextF st sock chunk len lang none).2 = []) ∧
    (∀ chans roomId sender p c,
        deliversTo chans ⟨Target.toRoomExcept roomId sender, p⟩ c = true ↔
          (c ∈ (getk roomId chans).getD [] ∧ c ≠ sender)) := by
  refine ⟨?_, ?_, ?_, ?_, ?_⟩
  · intro st sock chunk len lang text h1 h2 h3 h4
    simp [speechToTextF, h1, h2, h3, h4]
  · intro st sock chunk len lang tr h1
    simp [speechToTextF, h1]
  · intro st sock chunk len lang text h1
    simp only [speechToTextF, h1]
    split_ifs <;> first | rfl | simp_all
  · intro st sock chunk len lang
    simp only [speechToTextF]
    split_ifs <;> rfl
  · intro chans roomId sender p c
    simp [deliversTo]

/-- Witness for C6 at concrete inputs. -/
theorem C6_transcription_duplication_witness :
    (speechToTextF demoFull "s1" "AAAA" 3 "en-US" (some "hello")).2
      = [⟨Target.toRoomExcept "R" "s1",
          Payload.transcription "hello" "s1" "u1" "en-US" false⟩,
         ⟨Target.toSocket "s1",
          Payload.transcription "hello" "s1" "u1" "en-US" true⟩] ∧
    (speechToTextF demoFull "s9" "AAAA" 3 "en-US" (some "hello")).2 = [] :=
  ⟨by
    have h := C6_transcription_duplication.1 demoFull "s1" "AAAA" 3 "en-US" "hello"
      (by decide) (by decide) (by decide) (by decide)
    simpa using h,
   C6_transcription_duplication.2.1 demoFull "s9" "AAAA" 3 "en-US" (some "hello")
     (by decide)⟩

/-- C7 counterexample: connection c1 is first associated with identity A (on
connect), then a `session-info` event carrying identity B re-associates it —
the association is not immutable for the connection's lifetime. -/
theorem C7_counterexample :
    getk "c1" (runEvents [Event.connect "c1" "A" ""]).userSessions = some "A" ∧
    getk "c1" (runEvents [Event.connect "c1" "A" "",
        Event.sessionInfo "c1" "B" ""]).userSessions = some "B" ∧
    "c1" ∈ (runEvents [Event.connect "c1" "A" "",
        Event.sessionInfo "c1" "B" ""]).connectedSockets ∧
    ("A" : String) ≠ "B" := by decide

/-- C7 amended: each connection maps to at most one identity at a time
(`userSessions` is a single-valued map), and the association is preserved by
every event except the connection's own disconnect, a reconnect of the same
socket id under a different identity, or a `session-info` from that connection
carrying a different non-empty identity. -/
theorem C7_identity_binding :
    ∀ st e sock sid, getk sock st.userSessions = some sid →
      (∀ s2 r2, e = Event.connect sock s2 r2 → s2 = "" ∨ s2 = sid) →
      (∀ s2 r2, e = Event.sessionInfo sock s2 r2 → s2 = "" ∨ s2 = sid) →
      e ≠ Event.disconnect sock →
      getk sock (stepF st e).1.userSessions = some sid := by
  intro st e sock sid h hconn hsi hdisc
  cases e with
  | connect sock2 s2 r2 =>
    simp only [stepF]
    rw [connectF_userSessions]
    by_cases hs : s2 = ""
    · rw [if_pos hs]; exact h
    · rw [if_neg hs]
      by_cases hsock : sock2 = sock
      · subst hsock
        rcases hconn s2 r2 rfl with he | he
        · exact absurd he hs
        · subst he
          rw [getk_setk_self]
      · rw [getk_setk_ne (fun he => hsock he.symm)]
        exact h
  | sessionInfo sock2 s2 r2 =>
    simp only [stepF]
    rw [sessionInfoF_userSessions]
    split_ifs with hcond
    · by_cases hsock : sock2 = sock
      · subst hsock
        rcases hsi s2 r2 rfl with he | he
        · exact absurd he hcond.1
        · subst he
          exact absurd h hcond.2
      · rw [getk_setk_ne (fun he => hsock he.symm)]
        exact h
    · exact h
  | mediaPermissions sock2 audio video => exact h
  | createRoom sock2 r2 =>
    simp only [stepF]
    rw [createRoomF_userSessions]
    exact h
  | joinRoomEvt sock2 r2 =>
    simp only [stepF]
    rw [joinRoomEvtF_userSessions]
    exact h
  | speechToText sock2 chunk len lang tr => exact h
  | textToSpeech sock2 text lang synth => exact h
  | offerEvt sock2 d => exact h
  | answerEvt sock2 d => exact h
  | iceCandidate sock2 cand r2 => exact h
  | leaveRoom sock2 r2 =>
    simp only [stepF]
    rw [handleUserLeaveRoomF_userSessions]
    exact h
  | disconnect sock2 =>
    have hne : sock ≠ sock2 := fun he => hdisc (by rw [he])
    simp only [stepF]
    rw [disconnectF_userSessions, getk_delk_ne hne]
    exact h
  | cleanupTimerFires r2 =>
    simp only [stepF]
    rw [fireCleanupF_userSessions]
    exact h

/-- Witness for the amended C7 at concrete inputs. -/
theorem C7_identity_binding_witness :
    getk "s1" (stepF demoFull (Event.createRoom "s1" "R2")).1.userSessions
      = some "u1" :=
  C7_identity_binding demoFull (Event.createRoom "s1" "R2") "s1" "u1"
    (by decide) (fun s2 r2 hh => nomatch hh) (fun s2 r2 hh => nomatch hh)
    (fun hh => nomatch hh)

/-- C8: the check-room route is a pure read — the state component of its
result is the input state — and it reports `exists=false, available=true` for
an absent room, and otherwise `exists=true`, the occupant count, and
`available=true` exactly when the occupant count is below 2. -/
theorem C8_check_room :
    ∀ st roomId,
      (checkRoomRoute st roomId).1 = st ∧
      (getk roomId st.rooms = none →
        (checkRoomRoute st roomId).2
          = { available := true, roomExists := false, userCount := none }) ∧
      (∀ room, getk roomId st.rooms = some room →
        (checkRoomRoute st roomId).2.roomExists = true ∧
        (checkRoomRoute st roomId).2.userCount = some room.sessionIds.length ∧
        ((checkRoomRoute st roomId).2.available = true ↔
          room.sessionIds.length < 2)) := by
  intro st roomId
  refine ⟨rfl, ?_, ?_⟩
  · intro h
    simp [checkRoomRoute, h]
  · intro room h
    have h2 : (checkRoomRoute st roomId).2
        = { available := !decide (MAX_USERS_PER_ROOM ≤ room.sessionIds.length),
            roomExists := true, userCount := some room.sessionIds.length } := by
      simp [checkRoomRoute, h]
    rw [h2]
    refine ⟨rfl, rfl, ?_⟩
    rw [Bool.not_eq_true', decide_eq_false_iff_not]
    simp only [MAX_USERS_PER_ROOM]
    omega

/-- Witness for C8 at concrete inputs. -/
theorem C8_check_room_witness :
    (checkRoomRoute demoSolo "R").1 = demoSolo ∧
    (checkRoomRoute demoSolo "absent").2
      = { available := true, roomExists := false, userCount := none } ∧
    ((checkRoomRoute demoSolo "R").2.available = true ↔ (1 : Nat) < 2) :=
  have h := C8_check_room demoSolo "R"
  ⟨h.1, (C8_check_room demoSolo "absent").2.1 (by decide),
   (h.2.2 ⟨["u1"], ["s1"]⟩ (by decide)).2.2⟩

/-- C9: the create-room and join-room handlers are the same function of state,
connection and room id; with a registered identity both reduce to the common
join procedure applied to that identity, and without one both leave the state
unchanged and emit nothing. -/
theorem C9_create_join_equiv :
    (∀ st sock roomId, createRoomF st sock roomId = joinRoomEvtF st sock roomId) ∧
    (∀ st sock roomId, (getk sock st.userSessions).getD "" ≠ "" →
        createRoomF st sock roomId
          = joinRoomF st sock ((getk sock st.userSessions).getD "") roomId) ∧
    (∀ st sock roomId, (getk sock st.userSessions).getD "" = "" →
        createRoomF st sock roomId = (st, []) ∧
        joinRoomEvtF st sock roomId = (st, [])) := by
  refine ⟨fun st sock roomId => rfl, ?_, ?_⟩
  · intro st sock roomId h
    simp [createRoomF, h]
  · intro st sock roomId h
    constructor <;> simp [createRoomF, joinRoomEvtF, h]

/-- Witness for C9 at concrete inputs. -/
theorem C9_create_join_equiv_witness :
    createRoomF demoFull "s1" "R2" = joinRoomF demoFull "s1" "u1" "R2" ∧
    createRoomF demoFull "sX" "R2" = (demoFull, []) :=
  ⟨C9_create_join_equiv.2.1 demoFull "s1" "R2" (by decide),
   (C9_create_join_equiv.2.2 demoFull "sX" "R2" (by decide)).1⟩

/-- C10: a connection rejected with room-full has already joined the room's
transport broadcast group (the `socket.join` precedes the capacity check), so
room broadcasts from any other sender are delivered to it, although the room
record itself — both occupant set and tracked socket list — is unchanged; the
membership persists across any further event that is neither that
connection's own leave-room nor its disconnect. -/
theorem C10_rejected_socket_in_channel :
    ∀ st sock sid roomId room, getk roomId st.rooms = some room →
      sid ∉ room.sessionIds → 2 ≤ room.sessionIds.length →
      (joinRoomF st sock sid roomId).2
          = [⟨Target.toSocket sock, Payload.roomFull roomId⟩] ∧
      sock ∈ (getk roomId (joinRoomF st sock sid roomId).1.channels).getD [] ∧
      getk roomId (joinRoomF st sock sid roomId).1.rooms = some room ∧
      (∀ p sender, sender ≠ sock →
        deliversTo (joinRoomF st sock sid roomId).1.channels
          ⟨Target.toRoomExcept roomId sender, p⟩ sock = true) ∧
      (∀ e, (∀ r2, e ≠ Event.leaveRoom sock r2) → e ≠ Event.disconnect sock →
        sock ∈ (getk roomId
          (stepF (joinRoomF st sock sid roomId).1 e).1.channels).getD []) := by
  intro st sock sid roomId room hr hmem hfull
  have heq := joinRoomF_full_eq st sock sid roomId room hr hmem hfull
  have hchan : sock ∈ (getk roomId (joinRoomF st sock sid roomId).1.channels).getD [] := by
    rw [heq]
    show sock ∈ (getk roomId (chanJoin roomId sock st.channels)).getD []
    unfold chanJoin
    rw [getk_setk_self]
    exact mem_addIfAbsent_self sock _
  refine ⟨by rw [heq], hchan, by rw [heq]; exact hr, ?_, ?_⟩
  · intro p sender hs
    simp only [deliversTo, Bool.and_eq_true, decide_eq_true_eq]
    exact ⟨hchan, Ne.symm hs⟩
  · intro e hleave hdisc
    exact stepF_chanMember_preserved _ e sock roomId hchan hleave hdisc

/-- Witness for C10 at concrete inputs. -/
theorem C10_rejected_socket_in_channel_witness :
    (joinRoomF demoFull "s3" "u3" "R").2
        = [⟨Target.toSocket "s3", Payload.roomFull "R"⟩] ∧
    "s3" ∈ (getk "R" (joinRoomF demoFull "s3" "u3" "R").1.channels).getD [] ∧
    deliversTo (joinRoomF demoFull "s3" "u3" "R").1.channels
      ⟨Target.toRoomExcept "R" "s1", Payload.userJoined "s1" "u1" "R"⟩ "s3"
        = true ∧
    "s3" ∈ (getk "R" (stepF (joinRoomF demoFull "s3" "u3" "R").1
        (Event.disconnect "s1")).1.channels).getD [] :=
  have h := C10_rejected_socket_in_channel demoFull "s3" "u3" "R"
    ⟨["u1", "u2"], ["s1", "s2"]⟩ (by decide) (by decide) (by decide)
  ⟨h.1, h.2.1, h.2.2.2.1 (Payload.userJoined "s1" "u1" "R") "s1" (by decide),
   h.2.2.2.2 (Event.disconnect "s1") (fun r2 hh => nomatch hh)
     (fun hh => by injection hh with h2; exact absurd h2 (by decide))⟩

end RTC
